import Mathlib

/-!
Verification of the price-feeder aggregation pipeline.

The aggregation functions (`ComputeVWAP`, `StandardDeviation`) are modelled
from the specification, since only their tests ship in the sources; the
Astroport venue connector (`Poll`, `getPoolAssets`) is embedded from
`src/oracle/provider/astroport.go`.

Prices and volumes are `sdk.Dec` values: fixed-point decimals with 18
fractional digits, represented here as the underlying scaled integer
(`x` stands for the decimal `x / 10^18`).  The arithmetic below mirrors the
cosmos-sdk legacy decimal operations: addition and subtraction are exact on
the scaled integers, multiplication and division rescale and round half to
even at the 18th fractional digit, and integer-divisor quotients truncate
toward zero.
-/

/-- One in the scaled decimal representation: `10^18`. -/
def decOne : Nat := 1000000000000000000

/-- `decOne` as an integer. -/
def decOneI : Int := 1000000000000000000

/-- Remove 18 fractional digits from a non-negative scaled integer,
rounding to nearest and half to even (the cosmos-sdk chop-and-round). -/
def chopRoundNat (n : Nat) : Nat :=
  let q := n / decOne
  let r := n % decOne
  if 2 * r < decOne then q
  else if decOne < 2 * r then q + 1
  else if q % 2 = 0 then q else q + 1

/-- Sign-symmetric chop-and-round on integers: the rounding is applied to
the absolute value and the sign restored. -/
def chopRound (x : Int) : Int :=
  if x < 0 then -(chopRoundNat x.natAbs : Int) else (chopRoundNat x.natAbs : Int)

/-- Truncated (toward zero) integer division, the semantics of
`big.Int.Quo`. -/
def tdivZ (x y : Int) : Int :=
  if (x < 0) = (y < 0) then ((x.natAbs / y.natAbs : Nat) : Int)
  else -((x.natAbs / y.natAbs : Nat) : Int)

/-- Decimal multiplication (`Dec.Mul`): multiply the scaled integers and
chop-and-round away the extra 18 fractional digits. -/
def decMul (a b : Int) : Int := chopRound (a * b)

/-- Decimal division (`Dec.Quo`): scale the numerator by `10^36`, divide
truncating toward zero, then chop-and-round back to 18 fractional digits. -/
def decQuo (a b : Int) : Int := chopRound (tdivZ (a * (decOneI * decOneI)) b)

/-- Decimal division by a plain integer (`Dec.QuoInt64`): truncated
division of the scaled integer. -/
def decQuoInt (a : Int) (n : Int) : Int := tdivZ a n

/-- A single venue observation for one pair: price, volume and observation
time (`types.TickerPrice`).  Price and volume are scaled decimals. -/
structure TickerPrice where
  price : Int
  volume : Int
  time : Nat := 0
  deriving DecidableEq, Repr

/-- Modelled from the spec: `ComputeVWAP` is absent from the sources (only
its test is present).  Given the observations for one pair it returns
`Σ (price_i × volume_i) / Σ (volume_i)` in decimal arithmetic, and an
explicit error when the total volume is zero (which subsumes empty
input). -/
def ComputeVWAP (prices : List TickerPrice) : Except String Int :=
  let volumeSum := (prices.map (fun tp => tp.volume)).sum
  if volumeSum = 0 then Except.error "total volume is zero"
  else Except.ok (decQuo ((prices.map (fun tp => decMul tp.price tp.volume)).sum) volumeSum)

/-- C3: on the three observations of the spec's end-to-end example,
`ComputeVWAP` returns no error and exactly the decimal
`28.185812745610043621`, that is `Σ(price_i × volume_i) / Σ(volume_i)`
in 18-digit fixed-point decimal arithmetic. -/
theorem computeVWAP_example :
    ComputeVWAP
      [{ price := 28210000000000000000, volume := 2749102780000000000000000 },
       { price := 28268700000000000000, volume := 178277533143850000000000 },
       { price := 28168700000000000000, volume := 4749102533143850000000000 }]
      = Except.ok 28185812745610043621 := by
  rfl

/-- C7: `ComputeVWAP` is invariant under permutation of its input list:
both the error status and the value are identical. -/
theorem computeVWAP_perm (l1 l2 : List TickerPrice) (h : l1.Perm l2) :
    ComputeVWAP l1 = ComputeVWAP l2 := by
  have hv : (l1.map (fun tp => tp.volume)).sum = (l2.map (fun tp => tp.volume)).sum :=
    (h.map (fun tp => tp.volume)).sum_eq
  have hp : (l1.map (fun tp => decMul tp.price tp.volume)).sum
      = (l2.map (fun tp => decMul tp.price tp.volume)).sum :=
    (h.map (fun tp => decMul tp.price tp.volume)).sum_eq
  unfold ComputeVWAP
  rw [hv, hp]

/-- Witness for C7: the permutation invariance applied to two concrete
two-observation lists that are transpositions of each other. -/
theorem computeVWAP_perm_witness :
    ComputeVWAP
      [{ price := 28210000000000000000, volume := 2749102780000000000000000 },
       { price := 28268700000000000000, volume := 178277533143850000000000 }]
      = ComputeVWAP
      [{ price := 28268700000000000000, volume := 178277533143850000000000 },
       { price := 28210000000000000000, volume := 2749102780000000000000000 }] :=
  computeVWAP_perm _ _ (List.Perm.swap _ _ _)

/-- Association-list lookup, the model of Go map indexing `m[k]`. -/
def lookupA {α : Type} (k : String) : List (String × α) → Option α
  | [] => none
  | (k1, v) :: rest => if k1 = k then some v else lookupA k rest

/-- Association-list insertion, the model of Go map assignment
`m[k] = v`: an existing binding for `k` is replaced, otherwise the
binding is appended. -/
def insertA {α : Type} (k : String) (v : α) : List (String × α) → List (String × α)
  | [] => [(k, v)]
  | (k1, v1) :: rest => if k1 = k then (k, v) :: rest else (k1, v1) :: insertA k v rest

/-- One Newton step of the cosmos-sdk `ApproxRoot` with root 2: the update
`delta = (d / guess - guess) / 2`, with a zero guess replaced by the
smallest positive decimal. -/
def sqrtStep (d guess : Int) : Int :=
  let prev := if guess = 0 then 1 else guess
  tdivZ (decQuo d prev - guess) 2

/-- The `ApproxRoot` iteration: run Newton steps until the previous update
was at most one unit in the last place or the fuel (100 iterations in the
sdk) runs out. -/
def sqrtLoop (d : Int) : Nat → Int → Int → Int
  | 0, guess, _ => guess
  | fuel + 1, guess, delta =>
    if delta.natAbs ≤ 1 then guess
    else
      let d1 := sqrtStep d guess
      sqrtLoop d fuel (guess + d1) d1

/-- Decimal square root on non-negative inputs (`ApproxRoot 2` after the
sign is handled): zero and one are returned unchanged, otherwise Newton
iteration from an initial guess of one. -/
def sqrtDecNN (d : Int) : Int :=
  if d = 0 ∨ d = decOneI then d
  else sqrtLoop d 100 decOneI decOneI

/-- Decimal square root (`Dec.ApproxSqrt`): negative inputs are mirrored,
as in the sdk. -/
def sqrtDec (d : Int) : Int :=
  if d < 0 then -(sqrtDecNN (-d)) else sqrtDecNN d

/-- The prices reported for pair `k` across the venues of a cross-venue
price matrix, one entry per venue that reports `k`. -/
def pricesFor (k : String) (m : List (String × List (String × Int))) : List Int :=
  m.filterMap (fun vp => lookupA k vp.2)

/-- All pair symbols appearing anywhere in a cross-venue price matrix,
without duplicates. -/
def allPairs (m : List (String × List (String × Int))) : List String :=
  (m.flatMap (fun vp => vp.2.map (fun p => p.1))).dedup

/-- The (population deviation, mean) of a list of prices: the mean is the
truncating integer-divisor quotient of the sum, the deviation the decimal
square root of `Σ (price_i − mean)^2 / n`. -/
def devMeanFor (ps : List Int) : Int × Int :=
  let n : Int := (ps.length : Int)
  let mean := decQuoInt ps.sum n
  let varianceSum := (ps.map (fun p => decMul (p - mean) (p - mean))).sum
  (sqrtDec (decQuoInt varianceSum n), mean)

/-- Modelled from the spec: `StandardDeviation` is absent from the sources
(only its test is present).  Given the cross-venue price matrix
(venue → pair → price), it returns deviation and mean maps holding entries
exactly for the pairs reported by at least 3 venues; the error of the Go
signature arises only from a panic recovery inside the sdk square root and
is never produced here. -/
def StandardDeviation (m : List (String × List (String × Int))) :
    Except String (List (String × Int) × List (String × Int)) :=
  let ks := (allPairs m).filter (fun k => 3 ≤ (pricesFor k m).length)
  Except.ok
    (ks.map (fun k => (k, (devMeanFor (pricesFor k m)).1)),
     ks.map (fun k => (k, (devMeanFor (pricesFor k m)).2)))

/-- Lookup in a map built by tagging each key of `ks` with a value misses
every key outside `ks`. -/
theorem lookupA_map_self {α : Type} (f : String → α) (k : String) :
    ∀ ks : List String, k ∉ ks → lookupA k (ks.map (fun x => (x, f x))) = none := by
  intro ks
  induction ks with
  | nil => intro _; rfl
  | cons a rest ih =>
    intro hk
    simp only [List.map_cons, lookupA]
    have hak : ¬ a = k := fun h => hk (by rw [← h]; exact List.mem_cons_self a rest)
    rw [if_neg hak]
    exact ih (fun h => hk (List.mem_cons_of_mem a h))

/-- A pair reports at most one price per venue entry. -/
theorem pricesFor_length_le (k : String) (m : List (String × List (String × Int))) :
    (pricesFor k m).length ≤ m.length :=
  List.length_filterMap_le _ _

/-- C1: the consensus returns deviation and mean entries only for pairs
reported by at least 3 distinct venues.  Any pair reported by fewer than
3 venues is absent from both result maps, with no error; in particular an
input with only 2 venues yields empty result maps with no error. -/
theorem standardDeviation_quorum (m : List (String × List (String × Int)))
    (k : String) (_hnd : (m.map Prod.fst).Nodup)
    (h : (pricesFor k m).length < 3) :
    ∃ d mn, StandardDeviation m = Except.ok (d, mn)
      ∧ lookupA k d = none ∧ lookupA k mn = none
      ∧ (m.length = 2 → d = [] ∧ mn = []) := by
  refine ⟨_, _, rfl, ?_, ?_, ?_⟩
  · apply lookupA_map_self
    intro hk
    exact absurd (by simpa using (List.mem_filter.mp hk).2) (Nat.not_le.mpr h)
  · apply lookupA_map_self
    intro hk
    exact absurd (by simpa using (List.mem_filter.mp hk).2) (Nat.not_le.mpr h)
  · intro hm
    have hempty : (allPairs m).filter (fun k => 3 ≤ (pricesFor k m).length) = [] := by
      apply List.filter_eq_nil_iff.mpr
      intro a _
      have hle := pricesFor_length_le a m
      rw [hm] at hle
      simp only [decide_eq_true_eq]
      omega
    constructor <;> simp [StandardDeviation, hempty]

/-- The two-venue price matrix of the test suite: two venues reporting
`ATOM`, `UMEE` and `LUNA`. -/
def twoVenueMatrix : List (String × List (String × Int)) :=
  [("binance", [("ATOM", 28210000000000000000), ("UMEE", 1130000000000000000),
                ("LUNA", 64870000000000000000)]),
   ("kraken", [("ATOM", 28230000000000000000), ("UMEE", 1130500000000000000),
               ("LUNA", 64850000000000000000)])]

/-- Witness for C1: the two-venue matrix of the test suite yields empty
deviation and mean maps and no error. -/
theorem standardDeviation_quorum_witness :
    ∃ d mn, StandardDeviation twoVenueMatrix = Except.ok (d, mn)
      ∧ lookupA "ATOM" d = none ∧ lookupA "ATOM" mn = none
      ∧ (twoVenueMatrix.length = 2 → d = [] ∧ mn = []) :=
  standardDeviation_quorum twoVenueMatrix "ATOM" (by decide) (by decide)

/-- C4: for a pair reported by exactly 3 venues with prices 28.21, 28.23
and 28.40, the consensus returns the exact mean 28.28 and the exact
population (divisor `n`) deviation 0.085244745683629475. -/
theorem standardDeviation_three_venues :
    StandardDeviation
      [("binance", [("ATOM", 28210000000000000000)]),
       ("kraken", [("ATOM", 28230000000000000000)]),
       ("osmosis", [("ATOM", 28400000000000000000)])]
      = Except.ok ([("ATOM", 85244745683629475)], [("ATOM", 28280000000000000000)]) := by
  rfl

/-- Is `c` an ASCII upper-case letter?  The addresses handled by the
connector are ASCII, so this matches the case relevant to
`strings.ToLower`/`strings.ToUpper`. -/
def isUpperA (c : Char) : Prop := 65 ≤ c.toNat ∧ c.toNat ≤ 90

instance (c : Char) : Decidable (isUpperA c) := by
  unfold isUpperA
  infer_instance

/-- Lower-case one character (ASCII range). -/
def lcChar (c : Char) : Char :=
  if 65 ≤ c.toNat ∧ c.toNat ≤ 90 then Char.ofNat (c.toNat + 32) else c

/-- Upper-case one character (ASCII range). -/
def ucChar (c : Char) : Char :=
  if 97 ≤ c.toNat ∧ c.toNat ≤ 122 then Char.ofNat (c.toNat - 32) else c

/-- The model of `strings.ToLower` on the ASCII strings the connector
handles. -/
def strToLower (s : String) : String := ⟨s.data.map lcChar⟩

/-- The model of `strings.ToUpper` on the ASCII strings the connector
handles. -/
def strToUpper (s : String) : String := ⟨s.data.map ucChar⟩

/-- A token record of the Astroport token listing (`AstroportToken`).
The `priceUsd` float is represented as a scaled decimal. -/
structure AstroportToken where
  address : String
  symbol : String
  price : Int
  decimals : Int
  deriving DecidableEq, Repr

/-- One asset of an Astroport pool (`AstroportAsset`). -/
structure AstroportAsset where
  address : String
  amount : String
  symbol : String
  deriving DecidableEq, Repr

/-- An Astroport pool record (`AstroportPool`).  The `dayVolumeUsd` and
`poolLiquidityUsd` floats are represented as scaled decimals. -/
structure AstroportPool where
  volume : Int
  assets : List AstroportAsset
  liquidity : Int
  deriving DecidableEq, Repr

/-- `AstroportTokensData`. -/
structure AstroportTokensData where
  tokens : List AstroportToken
  deriving DecidableEq, Repr

/-- `AstroportTokensResponse`. -/
structure AstroportTokensResponse where
  data : AstroportTokensData
  deriving DecidableEq, Repr

/-- `AstroportPoolsData`. -/
structure AstroportPoolsData where
  pools : List AstroportPool
  deriving DecidableEq, Repr

/-- `AstroportPoolsResponse`. -/
structure AstroportPoolsResponse where
  data : AstroportPoolsData
  deriving DecidableEq, Repr

/-- The hard-coded symbol → canonical-address allow-list of `Poll`. -/
def whitelist : List (String × String) :=
  [("USDC", "ibc/b3504e092456ba618cc28ac671a71fb08c6ca0fd0be7c8a5b5a3e2dd933cc9e4"),
   ("LUNA", "uluna")]

/-- `floatToDec` of the source converts a venue-reported float into a
decimal; the model already carries those fields as scaled decimals, so the
conversion is the identity. -/
def floatToDec (x : Int) : Int := x

/-- One step of the token-map construction loop of `Poll`: a token whose
symbol is allow-listed under a different address is skipped, every other
token is stored under its address verbatim. -/
def tokenStep (wl : List (String × String)) (acc : List (String × AstroportToken))
    (token : AstroportToken) : List (String × AstroportToken) :=
  match lookupA token.symbol wl with
  | some address => if token.address ≠ address then acc else insertA token.address token acc
  | none => insertA token.address token acc

/-- The token identity mapping built by `Poll` from the token listing:
address → token, after allow-list filtering. -/
def buildTokens (ts : List AstroportToken) (wl : List (String × String)) :
    List (String × AstroportToken) :=
  ts.foldl (tokenStep wl) []

/-- The liquidity floor of `Poll`: $100,000 as a scaled decimal. -/
def liquidityFloor : Int := 100000000000000000000000

/-- `getPoolAssets`: match the pool's first two assets against the
configured pair set in both orders.  The outer `none` marks the
out-of-bounds access the source performs when the pool has fewer than two
assets (`pool.Assets[0]`/`pool.Assets[1]` panic); the inner `none` is the
no-match case in which the source returns `false`. -/
def getPoolAssets (pairs : List String) (pool : AstroportPool) :
    Option (Option (AstroportAsset × AstroportAsset)) :=
  match pool.assets with
  | a1 :: a2 :: _ =>
    if (lookupA (strToUpper (a1.symbol ++ a2.symbol)) (pairs.map (fun p => (p, ())))).isSome then
      some (some (a1, a2))
    else if (lookupA (strToUpper (a2.symbol ++ a1.symbol)) (pairs.map (fun p => (p, ())))).isSome then
      some (some (a2, a1))
    else
      some none
  | _ => none

/-- The body of the pool loop of `Poll` for one pool record.  `none` marks
a panic of the source: the out-of-bounds asset access, or `Dec.Quo` with a
zero divisor (`price1.Quo(price2)` when the quote price is zero, or the
volume quotient when the base price is zero).  `some st` with the store
unchanged models `continue`. -/
def processPool (pairs : List String) (tokens : List (String × AstroportToken))
    (timestamp : Nat) (st : List (String × TickerPrice)) (pool : AstroportPool) :
    Option (List (String × TickerPrice)) :=
  if pool.liquidity < liquidityFloor then some st
  else
    match getPoolAssets pairs pool with
    | none => none
    | some none => some st
    | some (some (a1, a2)) =>
      match lookupA (strToLower a1.address) tokens with
      | none => some st
      | some token1 =>
        match lookupA (strToLower a2.address) tokens with
        | none => some st
        | some token2 =>
          let symbol := strToUpper (a1.symbol ++ a2.symbol)
          let price1 := floatToDec token1.price
          let price2 := floatToDec token2.price
          if price2 = 0 then none
          else if price1 = 0 then none
          else
            some (insertA symbol
              { price := decQuo price1 price2,
                volume := decQuo (floatToDec pool.volume) price1,
                time := timestamp } st)

/-- The pool loop of `Poll` over the whole pool listing, threading the
ticker store and propagating a panic. -/
def pollPools (pairs : List String) (tokens : List (String × AstroportToken))
    (timestamp : Nat) :
    List (String × TickerPrice) → List AstroportPool → Option (List (String × TickerPrice))
  | st, [] => some st
  | st, pool :: rest =>
    match processPool pairs tokens timestamp st pool with
    | none => none
    | some st1 => pollPools pairs tokens timestamp st1 rest

/-- The environment of one `Poll` call: the outcomes of the two
`httpPost` transport calls (raw response bodies or transport errors) and
of the two `json.Unmarshal` decode steps on those bodies.  Marshalling the
two fixed query values never fails and is not modelled. -/
structure PollEnv where
  postTokens : Except String String
  postPools : Except String String
  decodeTokens : String → Except String AstroportTokensResponse
  decodePools : String → Except String AstroportPoolsResponse

/-- `AstroportProvider.Poll`: fetch and decode the token and pool
listings, build the token identity mapping, then run the pool loop under
the store lock with one shared timestamp.  The result is `none` when the
source panics, otherwise the new store and the returned error. -/
def Poll (env : PollEnv) (pairs : List String) (timestamp : Nat)
    (st : List (String × TickerPrice)) :
    Option (List (String × TickerPrice) × Option String) :=
  match env.postTokens with
  | Except.error e => some (st, some e)
  | Except.ok content =>
    match env.decodeTokens content with
    | Except.error e => some (st, some e)
    | Except.ok tokensResponse =>
      match env.postPools with
      | Except.error e => some (st, some e)
      | Except.ok content2 =>
        match env.decodePools content2 with
        | Except.error e => some (st, some e)
        | Except.ok poolsResponse =>
          let tokens := buildTokens tokensResponse.data.tokens whitelist
          match pollPools pairs tokens timestamp st poolsResponse.data.pools with
          | none => none
          | some st1 => some (st1, none)

/-- A transport or decode step of `Poll` fails, in the order the source
performs them: failures of later steps are only reachable when the earlier
steps succeeded. -/
def pollFetchFails (env : PollEnv) : Prop :=
  match env.postTokens with
  | Except.error _ => True
  | Except.ok content =>
    match env.decodeTokens content with
    | Except.error _ => True
    | Except.ok _ =>
      match env.postPools with
      | Except.error _ => True
      | Except.ok content2 =>
        match env.decodePools content2 with
        | Except.error _ => True
        | Except.ok _ => False

/-- Lookup after model-map insertion: the inserted binding shadows the
rest exactly at its key. -/
theorem lookupA_insertA {α : Type} (k k1 : String) (v : α) (l : List (String × α)) :
    lookupA k (insertA k1 v l) = if k1 = k then some v else lookupA k l := by
  induction l with
  | nil => rfl
  | cons p rest ih =>
    obtain ⟨k2, v2⟩ := p
    simp only [insertA]
    by_cases h2 : k2 = k1
    · subst h2
      rw [if_pos rfl]
      simp only [lookupA]
      by_cases hk : k2 = k
      · rw [if_pos hk, if_pos hk]
      · rw [if_neg hk, if_neg hk, if_neg hk]
    · rw [if_neg h2]
      simp only [lookupA, ih]
      by_cases hk2 : k2 = k
      · rw [if_pos hk2, if_neg (fun h => h2 (hk2.trans h.symm)), if_pos hk2]
      · rw [if_neg hk2, if_neg hk2]

/-- A token record dropped by the allow-list check: its symbol has an
allow-listed canonical address and its own address differs. -/
def spoofedT (wl : List (String × String)) (t : AstroportToken) : Prop :=
  ∃ a, lookupA t.symbol wl = some a ∧ t.address ≠ a

/-- Structure of the token identity mapping: anything found in the map
built over an accumulator was already in the accumulator, or is a token of
the listing, stored under its address verbatim, that the allow-list check
admitted. -/
theorem buildTokens_lookup_aux (wl : List (String × String)) :
    ∀ (ts : List AstroportToken) (acc : List (String × AstroportToken)) (k : String)
      (t : AstroportToken),
      lookupA k (ts.foldl (tokenStep wl) acc) = some t →
      lookupA k acc = some t ∨ (t ∈ ts ∧ t.address = k ∧ ¬ spoofedT wl t) := by
  intro ts
  induction ts with
  | nil => exact fun acc k t h => Or.inl h
  | cons token rest ih =>
    intro acc k t h
    rw [List.foldl_cons] at h
    rcases ih (tokenStep wl acc token) k t h with h1 | h1
    · unfold tokenStep at h1
      split at h1
      · rename_i address hw
        by_cases hne : token.address ≠ address
        · rw [if_pos hne] at h1
          exact Or.inl h1
        · rw [if_neg hne] at h1
          rw [lookupA_insertA] at h1
          by_cases hk : token.address = k
          · rw [if_pos hk] at h1
            injection h1 with h1
            subst h1
            refine Or.inr ⟨List.mem_cons_self _ _, hk, ?_⟩
            rintro ⟨a, ha, hne2⟩
            rw [hw] at ha
            injection ha with ha
            subst ha
            exact hne2 (not_not.mp hne)
          · rw [if_neg hk] at h1
            exact Or.inl h1
      · rename_i hw
        rw [lookupA_insertA] at h1
        by_cases hk : token.address = k
        · rw [if_pos hk] at h1
          injection h1 with h1
          subst h1
          refine Or.inr ⟨List.mem_cons_self _ _, hk, ?_⟩
          rintro ⟨a, ha, _⟩
          rw [hw] at ha
          exact Option.noConfusion ha
        · rw [if_neg hk] at h1
          exact Or.inl h1
    · exact Or.inr ⟨List.mem_cons_of_mem _ h1.1, h1.2⟩

/-- Everything found in the token identity mapping is a token of the
listing, keyed by its address verbatim, and survived the allow-list
check. -/
theorem buildTokens_lookup (ts : List AstroportToken) (wl : List (String × String))
    (k : String) (t : AstroportToken)
    (h : lookupA k (buildTokens ts wl) = some t) :
    t ∈ ts ∧ t.address = k ∧ ¬ spoofedT wl t := by
  rcases buildTokens_lookup_aux wl ts [] k t h with h1 | h1
  · exact absurd h1 (by simp [lookupA])
  · exact h1

/-- C2: whenever a transport (`httpPost`) or decode (`json.Unmarshal`)
step of `Poll` fails, `Poll` returns a non-nil error and the ticker store
is exactly as before the call: no entry is added, removed, or modified. -/
theorem poll_fetch_failure_preserves_store (env : PollEnv) (pairs : List String)
    (timestamp : Nat) (st : List (String × TickerPrice)) (h : pollFetchFails env) :
    ∃ e, Poll env pairs timestamp st = some (st, some e) := by
  rcases hpt : env.postTokens with e | content
  · exact ⟨e, by simp only [Poll, hpt]⟩
  · rcases hdt : env.decodeTokens content with e | tr
    · exact ⟨e, by simp only [Poll, hpt, hdt]⟩
    · rcases hpp : env.postPools with e | content2
      · exact ⟨e, by simp only [Poll, hpt, hdt, hpp]⟩
      · rcases hdp : env.decodePools content2 with e | pr
        · exact ⟨e, by simp only [Poll, hpt, hdt, hpp, hdp]⟩
        · exfalso
          simp only [pollFetchFails, hpt, hdt, hpp, hdp] at h

/-- An environment whose first transport call fails. -/
def failEnv : PollEnv where
  postTokens := Except.error "connection refused"
  postPools := Except.ok ""
  decodeTokens := fun _ => Except.ok ⟨⟨[]⟩⟩
  decodePools := fun _ => Except.ok ⟨⟨[]⟩⟩

/-- Witness for C2: with a failed token fetch, a store holding one prior
entry is returned untouched together with an error. -/
theorem poll_fetch_failure_preserves_store_witness :
    ∃ e, Poll failEnv ["ATOMLUNA"] 7
        [("ATOMLUNA", { price := 1, volume := 2, time := 3 })]
      = some ([("ATOMLUNA", { price := 1, volume := 2, time := 3 })], some e) :=
  poll_fetch_failure_preserves_store failEnv ["ATOMLUNA"] 7
    [("ATOMLUNA", { price := 1, volume := 2, time := 3 })] trivial

/-- C5: a token record whose symbol is allow-listed under a different
address is never present in the token identity mapping, and a pool whose
matched asset address resolves only to such records is skipped: its pair
is not written to the ticker store, even though the pair matched the
configuration. -/
theorem poll_spoofed_token_excluded
    (ts : List AstroportToken) (t : AstroportToken) (addr k : String)
    (pairs : List String) (timestamp : Nat) (st : List (String × TickerPrice))
    (pool : AstroportPool) (a1 a2 : AstroportAsset)
    (hswl : lookupA t.symbol whitelist = some addr)
    (haddr : t.address ≠ addr)
    (hpass : getPoolAssets pairs pool = some (some (a1, a2)))
    (hsp : (∀ u ∈ ts, u.address = strToLower a1.address → spoofedT whitelist u) ∨
           (∀ u ∈ ts, u.address = strToLower a2.address → spoofedT whitelist u)) :
    lookupA k (buildTokens ts whitelist) ≠ some t ∧
      processPool pairs (buildTokens ts whitelist) timestamp st pool = some st := by
  have hnone : ∀ (s : String), (∀ u ∈ ts, u.address = s → spoofedT whitelist u) →
      lookupA s (buildTokens ts whitelist) = none := by
    intro s hs
    cases hl : lookupA s (buildTokens ts whitelist) with
    | none => rfl
    | some u =>
      obtain ⟨hmem, haddr2, hnsp⟩ := buildTokens_lookup ts whitelist s u hl
      exact absurd (hs u hmem haddr2) hnsp
  constructor
  · intro hl
    exact (buildTokens_lookup ts whitelist k t hl).2.2 ⟨addr, hswl, haddr⟩
  · unfold processPool
    by_cases hliq : pool.liquidity < liquidityFloor
    · rw [if_pos hliq]
    · rw [if_neg hliq]
      simp only [hpass]
      rcases hsp with hs1 | hs2
      · simp only [hnone _ hs1]
      · cases hl1 : lookupA (strToLower a1.address) (buildTokens ts whitelist) with
        | none => simp only [hl1]
        | some token1 => simp only [hl1, hnone _ hs2]

/-- The spoofing token of the witness: symbol `LUNA`, address not the
allow-listed `uluna`. -/
def spoofLuna : AstroportToken where
  address := "terra1fakeluna"
  symbol := "LUNA"
  price := 5000000000000000000
  decimals := 6

/-- The pool asset carrying the spoofing token. -/
def assetFakeLuna : AstroportAsset where
  address := "terra1fakeluna"
  amount := "1"
  symbol := "LUNA"

/-- A genuine USDC pool asset. -/
def assetUSDC : AstroportAsset where
  address := "ibc/b3504e092456ba618cc28ac671a71fb08c6ca0fd0be7c8a5b5a3e2dd933cc9e4"
  amount := "1"
  symbol := "USDC"

/-- A liquid pool pairing the spoofing asset with USDC. -/
def poolFakeLuna : AstroportPool where
  volume := 500000000000000000000000
  assets := [assetFakeLuna, assetUSDC]
  liquidity := 200000000000000000000000

/-- Witness for C5: the spoofing `LUNA` token is excluded from the token
identity mapping, and the liquid `LUNAUSDC` pool carrying it is skipped
although its pair is configured. -/
theorem poll_spoofed_token_excluded_witness :
    lookupA "terra1fakeluna" (buildTokens [spoofLuna] whitelist) ≠ some spoofLuna ∧
      processPool ["LUNAUSDC"] (buildTokens [spoofLuna] whitelist) 0 [] poolFakeLuna
        = some [] :=
  poll_spoofed_token_excluded [spoofLuna] spoofLuna "uluna" "terra1fakeluna" ["LUNAUSDC"]
    0 [] poolFakeLuna assetFakeLuna assetUSDC (by decide) (by decide) (by decide)
    (Or.inl (fun u hu _ => by
      have h1 := List.mem_singleton.mp hu
      subst h1
      exact ⟨"uluna", by decide, by decide⟩))

/-- C6: a pool whose liquidity is strictly below the $100,000 floor is
skipped entirely: no ticker entry derived from it is written, regardless
of its assets or pair match. -/
theorem poll_low_liquidity_skipped (pairs : List String)
    (tokens : List (String × AstroportToken)) (timestamp : Nat)
    (st : List (String × TickerPrice)) (pool : AstroportPool)
    (h : pool.liquidity < liquidityFloor) :
    processPool pairs tokens timestamp st pool = some st := by
  unfold processPool
  rw [if_pos h]

/-- A token with a non-zero USD price. -/
def tokenATOM : AstroportToken where
  address := "uatom"
  symbol := "ATOM"
  price := 28210000000000000000
  decimals := 6

/-- A second token with a non-zero USD price. -/
def tokenOSMO : AstroportToken where
  address := "uosmo"
  symbol := "OSMO"
  price := 1000000000000000000
  decimals := 6

/-- The ATOM token with a venue-quoted USD price of zero. -/
def tokenATOM0 : AstroportToken where
  address := "uatom"
  symbol := "ATOM"
  price := 0
  decimals := 6

/-- The OSMO token with a venue-quoted USD price of zero. -/
def tokenOSMO0 : AstroportToken where
  address := "uosmo"
  symbol := "OSMO"
  price := 0
  decimals := 6

/-- An ATOM pool asset. -/
def assetATOM : AstroportAsset where
  address := "uatom"
  amount := "1"
  symbol := "ATOM"

/-- An OSMO pool asset. -/
def assetOSMO : AstroportAsset where
  address := "uosmo"
  amount := "1"
  symbol := "OSMO"

/-- A liquid ATOM/OSMO pool. -/
def poolAtomOsmo : AstroportPool where
  volume := 500000000000000000000000
  assets := [assetATOM, assetOSMO]
  liquidity := 200000000000000000000000

/-- An ATOM/OSMO pool just below the liquidity floor. -/
def thinPool : AstroportPool where
  volume := 500000000000000000000000
  assets := [assetATOM, assetOSMO]
  liquidity := 99999000000000000000000

/-- Witness for C6: a pool with $99,999 liquidity, matching assets and a
configured pair, writes nothing to an empty store. -/
theorem poll_low_liquidity_skipped_witness :
    thinPool.liquidity < liquidityFloor ∧
      processPool ["ATOMOSMO"] (buildTokens [tokenATOM, tokenOSMO] whitelist) 0 [] thinPool
        = some [] :=
  ⟨by decide, poll_low_liquidity_skipped _ _ _ _ _ (by decide)⟩

/-- A liquid pool whose asset list is empty. -/
def shortPool : AstroportPool where
  volume := 0
  assets := []
  liquidity := 100000000000000000000000

/-- An environment delivering the empty-asset pool. -/
def envShort : PollEnv where
  postTokens := Except.ok ""
  postPools := Except.ok ""
  decodeTokens := fun _ => Except.ok ⟨⟨[]⟩⟩
  decodePools := fun _ => Except.ok ⟨⟨[shortPool]⟩⟩

/-- C8: a pool at the liquidity floor with fewer than two assets is not
skipped gracefully: `getPoolAssets` indexes the first two assets
unconditionally, so the out-of-bounds branch of the embedding is reached
and `Poll` panics on such venue input instead of returning an error. -/
theorem poll_short_assets_out_of_bounds :
    ¬ shortPool.liquidity < liquidityFloor ∧ shortPool.assets.length < 2
      ∧ getPoolAssets ["ATOMOSMO"] shortPool = none
      ∧ Poll envShort ["ATOMOSMO"] 0 [] = none := by
  refine ⟨by decide, by decide, rfl, rfl⟩

/-- An environment delivering a liquid matching pool whose quote asset has
a zero USD price. -/
def envZeroQuote : PollEnv where
  postTokens := Except.ok ""
  postPools := Except.ok ""
  decodeTokens := fun _ => Except.ok ⟨⟨[tokenATOM, tokenOSMO0]⟩⟩
  decodePools := fun _ => Except.ok ⟨⟨[poolAtomOsmo]⟩⟩

/-- C9: a pool that passes the liquidity floor, the pair match and the
allow-list lookups but whose matched asset has a venue-quoted USD price of
zero reaches an unguarded decimal division: with a zero quote price
(`price1.Quo(price2)`), and likewise with a zero base price (the volume
quotient), the division-by-zero branch of the embedding is reached rather
than surfaced as an error. -/
theorem poll_zero_price_division :
    ¬ poolAtomOsmo.liquidity < liquidityFloor
    ∧ getPoolAssets ["ATOMOSMO"] poolAtomOsmo = some (some (assetATOM, assetOSMO))
    ∧ lookupA (strToLower assetOSMO.address) (buildTokens [tokenATOM, tokenOSMO0] whitelist)
        = some tokenOSMO0
    ∧ tokenOSMO0.price = 0
    ∧ Poll envZeroQuote ["ATOMOSMO"] 0 [] = none
    ∧ lookupA (strToLower assetATOM.address) (buildTokens [tokenATOM0, tokenOSMO] whitelist)
        = some tokenATOM0
    ∧ tokenATOM0.price = 0 ∧ tokenOSMO.price ≠ 0
    ∧ processPool ["ATOMOSMO"] (buildTokens [tokenATOM0, tokenOSMO] whitelist) 0 []
        poolAtomOsmo = none := by
  refine ⟨by decide, rfl, rfl, rfl, rfl, rfl, rfl, by decide, rfl⟩

/-- Lower-casing never produces an ASCII upper-case letter. -/
theorem lcChar_not_upper (c : Char) : ¬ isUpperA (lcChar c) := by
  unfold lcChar isUpperA
  by_cases h : 65 ≤ c.toNat ∧ c.toNat ≤ 90
  · rw [if_pos h]
    have hgen : ∀ t : Nat, 65 ≤ t → t ≤ 90 →
        ¬ (65 ≤ (Char.ofNat (t + 32)).toNat ∧ (Char.ofNat (t + 32)).toNat ≤ 90) := by
      intro t h1 h2
      interval_cases t <;> decide
    exact hgen c.toNat h.1 h.2
  · rw [if_neg h]
    exact h

/-- The character list of a lower-cased string. -/
theorem strToLower_data (s : String) : (strToLower s).data = s.data.map lcChar := rfl

/-- C10: the token identity mapping is keyed by each token's address
verbatim while pool-asset lookup lower-cases the pool asset's address, so
a token whose stored address contains an upper-case character is never
matched by any pool asset, and a pool asset only ever matches a token
whose address is entirely lower-case. -/
theorem poll_case_asymmetric_lookup
    (ts : List AstroportToken) (t u : AstroportToken) (a k : String)
    (hup : ∃ c ∈ t.address.data, isUpperA c) :
    lookupA (strToLower a) (buildTokens ts whitelist) ≠ some t ∧
    (lookupA k (buildTokens ts whitelist) = some u → u.address = k) ∧
    (lookupA (strToLower a) (buildTokens ts whitelist) = some u →
      ∀ c ∈ u.address.data, ¬ isUpperA c) := by
  refine ⟨?_, ?_, ?_⟩
  · intro hl
    obtain ⟨_, haddr, _⟩ := buildTokens_lookup ts whitelist _ t hl
    obtain ⟨c, hc, hcu⟩ := hup
    rw [haddr, strToLower_data] at hc
    obtain ⟨c1, _, rfl⟩ := List.mem_map.mp hc
    exact lcChar_not_upper c1 hcu
  · intro hl
    exact (buildTokens_lookup ts whitelist _ u hl).2.1
  · intro hl c hc
    have haddr := (buildTokens_lookup ts whitelist _ u hl).2.1
    rw [haddr, strToLower_data] at hc
    obtain ⟨c1, _, rfl⟩ := List.mem_map.mp hc
    exact lcChar_not_upper c1

/-- A token whose stored address contains upper-case characters. -/
def tokenUpper : AstroportToken where
  address := "IBC/ABCDEF"
  symbol := "FOO"
  price := 1000000000000000000
  decimals := 6

/-- Witness for C10: the upper-case-addressed token is unreachable through
the lower-cased pool-asset lookup. -/
theorem poll_case_asymmetric_lookup_witness :
    lookupA (strToLower "IBC/ABCDEF") (buildTokens [tokenUpper] whitelist)
        ≠ some tokenUpper ∧
    (lookupA "IBC/ABCDEF" (buildTokens [tokenUpper] whitelist) = some tokenUpper →
      tokenUpper.address = "IBC/ABCDEF") ∧
    (lookupA (strToLower "IBC/ABCDEF") (buildTokens [tokenUpper] whitelist)
        = some tokenUpper →
      ∀ c ∈ tokenUpper.address.data, ¬ isUpperA c) :=
  poll_case_asymmetric_lookup [tokenUpper] tokenUpper tokenUpper "IBC/ABCDEF" "IBC/ABCDEF"
    (by decide)
